import Mathlib

/-!
Shallow embedding of the leak-worm lifecycle controller (`src/decay-core.js`),
its configuration (`src/config.js`), and the three stage-reactive subscribers:
the audio engine (`src/unnamed/part_000`), the beam scanner
(`src/unnamed/part_001`) and the particle field (`src/particles.js`).

Time is modelled in milliseconds as a natural number passed explicitly to each
operation (the JS code reads `Date.now()`).  Progress fractions and gain values
are rationals.  The single interval slot `this.timer` is modelled by a `timer`
field holding the interval id, together with the multiset of actually active
intervals (`activeTimers`): JS `setInterval` returns a fresh id and leaves any
previously created interval running unless `clearInterval` is called on it, so
the field and the set can disagree when an operation overwrites the field
without clearing.  Side effects that leave the controller (DOM changes,
scheduled `setTimeout`s, listener invocations, completion callbacks) are
recorded as an event list returned next to the new state.
-/

namespace LeakWorm

/-- Lifecycle stage names used by decay-core, config and all subscribers. -/
inductive Stage where
  | healthy
  | panic
  | decay
  | death
  | pirate
deriving DecidableEq, Repr

/-- Which callback a `setInterval` slot runs: the standard `update` tick or the
`updateTransition` loop. -/
inductive TimerKind where
  | tick
  | transUpdate
deriving DecidableEq, Repr

/-- Identity of a transition completion callback closure.  `setDead` is the
closure passed by `beginDeath` (sets `isDead`); `setDeadHide` is the closure
passed by `enterPirateMode` (sets `isDead` and hides the page container, the
DOM part being outside the model); `user` is an arbitrary caller-supplied
callback with no effect on controller state. -/
inductive CbId where
  | setDead
  | setDeadHide
  | user
deriving DecidableEq, Repr

/-- A registered listener: an id plus whether invoking it raises an error
(the two behaviours distinguished by `decay.notify`'s try/catch). -/
structure Listener where
  id : Nat
  throws : Bool
deriving DecidableEq, Repr

/-- Observable side effects of controller operations. -/
inductive Event where
  | notified (stage : Stage) (progress : ℚ)
  | listenerCalled (l : Nat) (stage : Stage) (progress : ℚ)
  | errorCaught (l : Nat)
  | cbInvoked (c : CbId)
  | timeoutScheduled (delayMs : ℚ)
  | transitionStarted (toStage : Stage) (durationMs : ℚ)
deriving DecidableEq, Repr

/-- Standard-mode stage durations from `CONFIG.timings.standard` (ms). -/
structure StandardTiming where
  healthy : Nat
  panic : Nat
  decay : Nat
  death : Nat
  total : Nat
deriving DecidableEq, Repr

/-- The `CONFIG.timings.standard` table: 24s healthy, 3s panic, 3s decay,
2s death, 32s total. -/
def standardTiming : StandardTiming :=
  { healthy := 24000, panic := 3000, decay := 3000, death := 2000, total := 32000 }

/-- The `CONFIG.timings.pirate.fadeOutDuration` constant (ms). -/
def pirateFadeOutDuration : Nat := 3000

/-- The `CONFIG.timings.pirate.colorShiftDuration` constant (ms). -/
def pirateColorShiftDuration : Nat := 7000

/-- State of the `decay` controller object (`src/decay-core.js`, lines 25-48),
extended with the bookkeeping needed to model intervals precisely: the set of
actually running intervals and a fresh-id counter (browser interval ids are
positive, so the counter starts at 1 and `this.timer` being null is `none`). -/
structure DecayState where
  stage : Stage
  progress : ℚ
  lastInteraction : Option Nat
  timer : Option Nat
  listeners : List Listener
  isDead : Bool
  permanentPirateMode : Bool
  isTransitioning : Bool
  transitionStartTime : Option Nat
  transitionDuration : Option ℚ
  transitionCallback : Option CbId
  transitionToStage : Option Stage
  previousStage : Option Stage
  activeTimers : List (Nat × TimerKind)
  nextTimerId : Nat
deriving DecidableEq, Repr

/-- The literal initial field values of the `decay` object. -/
def initState : DecayState :=
  { stage := Stage.pirate
    progress := 0
    lastInteraction := none
    timer := none
    listeners := []
    isDead := false
    permanentPirateMode := true
    isTransitioning := false
    transitionStartTime := none
    transitionDuration := none
    transitionCallback := none
    transitionToStage := none
    previousStage := none
    activeTimers := []
    nextTimerId := 1 }

/-- JS `if (this.timer) { clearInterval(this.timer); this.timer = null; }`:
cancels the interval the field refers to (and only that one). -/
def clearTimerField (st : DecayState) : DecayState :=
  match st.timer with
  | some id =>
      { st with activeTimers := st.activeTimers.filter (fun p => p.1 != id), timer := none }
  | none => st

/-- JS `this.timer = setInterval(cb, 100)`: registers a fresh interval and
stores its id in the field, without cancelling anything. -/
def installTimer (k : TimerKind) (st : DecayState) : DecayState :=
  { st with
      activeTimers := st.activeTimers ++ [(st.nextTimerId, k)]
      timer := some st.nextTimerId
      nextTimerId := st.nextTimerId + 1 }

/-- Invoking one listener callback either returns or raises (`Except.error`). -/
def runListener (l : Listener) : Except Unit Unit :=
  if l.throws then Except.error () else Except.ok ()

/-- The `listeners.forEach` loop of `decay.notify`: each callback is invoked
with the current `(stage, progress)`; an error is caught (recorded as an
`errorCaught` event) and the loop continues with the next listener. -/
def notifyList : List Listener → Stage → ℚ → List Event
  | [], _, _ => []
  | l :: rest, s, p =>
      match runListener l with
      | Except.ok _ => Event.listenerCalled l.id s p :: notifyList rest s p
      | Except.error _ =>
          Event.listenerCalled l.id s p :: Event.errorCaught l.id :: notifyList rest s p

/-- Events produced by one `notify()` broadcast of `(s, p)` to `ls`. -/
def notifyEvents (s : Stage) (p : ℚ) (ls : List Listener) : List Event :=
  Event.notified s p :: notifyList ls s p

/-- The `decay.notify` method: broadcasts to all listeners, never changes
controller state (listener errors are swallowed per listener). -/
def notify (st : DecayState) : DecayState × List Event :=
  (st, notifyEvents st.stage st.progress st.listeners)

/-- The `decay.subscribe` method: appends a callback; a non-function argument
(modelled as `none`) is silently ignored. -/
def subscribe (cb : Option Listener) (st : DecayState) : DecayState :=
  match cb with
  | none => st
  | some l => { st with listeners := st.listeners ++ [l] }

/-- The `decay.startTransition(toStage, duration, onComplete)` method:
saves the previous stage, cancels the stored timer, records the transition
parameters and installs the 100ms transition-update interval. -/
def startTransition (now : Nat) (toStage : Stage) (duration : ℚ) (cb : Option CbId)
    (st : DecayState) : DecayState × List Event :=
  let st1 := { st with previousStage := some st.stage }
  let st2 := clearTimerField st1
  let st3 := { st2 with
      isTransitioning := true
      transitionStartTime := some now
      transitionDuration := some duration
      transitionToStage := some toStage
      transitionCallback := cb }
  (installTimer TimerKind.transUpdate st3, [Event.transitionStarted toStage duration])

/-- State effect of a completion callback closure. -/
def applyCb : CbId → DecayState → DecayState
  | CbId.setDead, st => { st with isDead := true }
  | CbId.setDeadHide, st => { st with isDead := true }
  | CbId.user, st => st

/-- The transition start time read by `updateTransition` (`null` coerces to 0
in the JS subtraction). -/
def transStartOf (st : DecayState) : ℚ :=
  match st.transitionStartTime with
  | some v => (v : ℚ)
  | none => 0

/-- The transition duration read by `updateTransition`. -/
def transDurOf (st : DecayState) : ℚ :=
  match st.transitionDuration with
  | some v => v
  | none => 0

/-- The destination stage assigned by `updateTransition` (`transitionToStage`
is always set when the transition interval is running; a missing value keeps
the current stage in the model). -/
def transToOf (st : DecayState) : Stage :=
  match st.transitionToStage with
  | some s => s
  | none => st.stage

/-- The progress value `min(elapsed / duration, 1)` computed by
`updateTransition` at instant `now`. -/
def transProgAt (now : Nat) (st : DecayState) : ℚ :=
  min (((now : ℚ) - transStartOf st) / transDurOf st) 1

/-- The `decay.updateTransition` method: recomputes progress as
`min(elapsed/duration, 1)`, reports the destination stage, notifies, and when
progress has reached 1 clears the interval and the transitioning flag,
detaches the stored callback and invokes it. -/
def updateTransition (now : Nat) (st : DecayState) : DecayState × List Event :=
  if 1 ≤ transProgAt now st then
    match st.transitionCallback with
    | some c =>
        (applyCb c
          { clearTimerField { st with progress := transProgAt now st, stage := transToOf st } with
              isTransitioning := false, transitionCallback := none },
         notifyEvents (transToOf st) (transProgAt now st) st.listeners
           ++ [Event.cbInvoked c])
    | none =>
        ({ clearTimerField { st with progress := transProgAt now st, stage := transToOf st } with
             isTransitioning := false, transitionCallback := none },
         notifyEvents (transToOf st) (transProgAt now st) st.listeners)
  else
    ({ st with progress := transProgAt now st, stage := transToOf st },
     notifyEvents (transToOf st) (transProgAt now st) st.listeners)

/-- The `decay.beginDeath` method: a no-op once dead; otherwise schedules the
content-hiding `setTimeout` at 75% of the death duration and starts the death
transition whose completion sets `isDead`.  `timing.death || 2000` is the JS
falsy-default, which on a number is the value unless it is 0. -/
def beginDeath (now : Nat) (st : DecayState) : DecayState × List Event :=
  if st.isDead then (st, [])
  else
    let deathDuration : ℚ :=
      if standardTiming.death = 0 then 2000 else (standardTiming.death : ℚ)
    let r := startTransition now Stage.death deathDuration (some CbId.setDead) st
    (r.1, Event.timeoutScheduled (deathDuration * (3 / 4)) :: r.2)

/-- The `decay.update` tick: skipped entirely in permanent pirate mode,
delegated to `updateTransition` while transitioning, skipped when dead, and
otherwise buckets `Date.now() - lastInteraction` against the cumulative
standard-mode thresholds (a null `lastInteraction` coerces to 0 in the JS
subtraction). -/
def update (now : Nat) (st : DecayState) : DecayState × List Event :=
  if st.permanentPirateMode then (st, [])
  else if st.isTransitioning then updateTransition now st
  else if st.isDead then (st, [])
  else
    let last : Int := match st.lastInteraction with
      | some v => (v : Int)
      | none => 0
    let elapsed : Int := (now : Int) - last
    let tm := standardTiming
    if elapsed < (tm.healthy : Int) then
      notify { st with stage := Stage.healthy, progress := (elapsed : ℚ) / (tm.healthy : ℚ) }
    else if elapsed < ((tm.healthy : Int) + (tm.panic : Int)) then
      notify { st with stage := Stage.panic,
                       progress := ((elapsed : ℚ) - (tm.healthy : ℚ)) / (tm.panic : ℚ) }
    else if elapsed < ((tm.healthy : Int) + (tm.panic : Int) + (tm.decay : Int)) then
      notify { st with stage := Stage.decay,
                       progress := (((elapsed : ℚ) - (tm.healthy : ℚ)) - (tm.panic : ℚ)) / (tm.decay : ℚ) }
    else if elapsed < ((tm.healthy : Int) + (tm.panic : Int) + (tm.decay : Int) + (tm.death : Int)) then
      let p : ℚ := ((((elapsed : ℚ) - (tm.healthy : ℚ)) - (tm.panic : ℚ)) - (tm.decay : ℚ)) / (tm.death : ℚ)
      let st1 := { st with stage := Stage.death, progress := p }
      if 1 ≤ p then beginDeath now st1 else notify st1
    else
      beginDeath now st

/-- The `decay.start` method: resets flags, stamps `lastInteraction`, and in
permanent pirate mode freezes at (pirate, 1.0) with one broadcast and no timer,
while in standard mode installs the 100ms tick interval and broadcasts. -/
def start (now : Nat) (st : DecayState) : DecayState × List Event :=
  let st1 := { st with isDead := false, isTransitioning := false, lastInteraction := some now }
  if st1.permanentPirateMode then
    notify { st1 with stage := Stage.pirate, progress := 1 }
  else
    notify (installTimer TimerKind.tick st1)

/-- The `decay.reset` method: restamps `lastInteraction` unless dead,
transitioning, or in permanent pirate mode. -/
def reset (now : Nat) (st : DecayState) : DecayState :=
  if st.isDead || st.isTransitioning || st.permanentPirateMode then st
  else { st with lastInteraction := some now }

/-- The `decay.enterPirateMode` method: starts the pirate transition over the
configured colour-shift duration with the hide-content completion closure, and
schedules the caller's fade callback after the fade-out duration. -/
def enterPirateMode (now : Nat) (st : DecayState) : DecayState × List Event :=
  let fullDuration : ℚ :=
    if pirateColorShiftDuration = 0 then 7000 else (pirateColorShiftDuration : ℚ)
  let fadeOut : ℚ :=
    if pirateFadeOutDuration = 0 then 3000 else (pirateFadeOutDuration : ℚ)
  let r := startTransition now Stage.pirate fullDuration (some CbId.setDeadHide) st
  (r.1, r.2 ++ [Event.timeoutScheduled fadeOut])

/-- The `decay.setStage` debug method. -/
def setStage (s : Stage) (p : ℚ) (st : DecayState) : DecayState × List Event :=
  notify { st with stage := s, progress := p }

/-- The `decay.pause` method. -/
def pause (st : DecayState) : DecayState :=
  clearTimerField st

/-- The `decay.resume` method: reinstalls the tick interval only when no timer
is stored and the organism is alive, not transitioning and not permanent. -/
def resume (st : DecayState) : DecayState :=
  if st.timer = none && !st.isDead && !st.isTransitioning && !st.permanentPirateMode then
    installTimer TimerKind.tick st
  else st

/-- The `decay.destroy` method. -/
def destroy (st : DecayState) : DecayState :=
  let st1 := clearTimerField st
  { st1 with listeners := [], isDead := false, isTransitioning := false }

/-- The event loop firing interval `id`: dispatches to the callback the
interval was created with, or does nothing if that interval was cancelled. -/
def fireTimer (id : Nat) (now : Nat) (st : DecayState) : DecayState × List Event :=
  match st.activeTimers.find? (fun p => p.1 == id) with
  | some (_, TimerKind.tick) => update now st
  | some (_, TimerKind.transUpdate) => updateTransition now st
  | none => (st, [])

/-- Fires interval `id` at each of the given instants in turn, collecting the
emitted events (the instants stand for the 100ms beats of the event loop). -/
def runTimer (id : Nat) (times : List Nat) (st : DecayState) : DecayState × List Event :=
  match times with
  | [] => (st, [])
  | n :: rest =>
      let r1 := fireTimer id n st
      let r2 := runTimer id rest r1.1
      (r2.1, r1.2 ++ r2.2)

/-- One controller operation, tagged with the instant at which it runs. -/
inductive Op where
  | opStart (now : Nat)
  | opReset (now : Nat)
  | opStartTransition (now : Nat) (toStage : Stage) (duration : ℚ) (cb : Option CbId)
  | opBeginDeath (now : Nat)
  | opEnterPirate (now : Nat)
  | opPause
  | opResume
  | opDestroy
  | opFire (id : Nat) (now : Nat)
  | opSubscribe (l : Option Listener)
  | opSetStage (s : Stage) (p : ℚ)
deriving DecidableEq, Repr

/-- Applies one operation of the controller interface. -/
def applyOp : Op → DecayState → DecayState × List Event
  | Op.opStart now, st => start now st
  | Op.opReset now, st => (reset now st, [])
  | Op.opStartTransition now toS dur cb, st => startTransition now toS dur cb st
  | Op.opBeginDeath now, st => beginDeath now st
  | Op.opEnterPirate now, st => enterPirateMode now st
  | Op.opPause, st => (pause st, [])
  | Op.opResume, st => (resume st, [])
  | Op.opDestroy, st => (destroy st, [])
  | Op.opFire id now, st => fireTimer id now st
  | Op.opSubscribe l, st => (subscribe l st, [])
  | Op.opSetStage s p, st => setStage s p st

/-- Runs a sequence of operations, keeping only the final state. -/
def runOps (ops : List Op) (st : DecayState) : DecayState :=
  ops.foldl (fun s op => (applyOp op s).1) st

/-- The single-active-timer invariant: either no interval is running and none
is stored, or exactly one is running and it is the stored one. -/
def timersInv (st : DecayState) : Bool :=
  match st.timer, st.activeTimers with
  | none, [] => true
  | some id, [p] => p.1 == id
  | _, _ => false

/-- Whether an operation is a `start` call. -/
def isStartOp : Op → Bool
  | Op.opStart _ => true
  | _ => false

/-- Holds when, along the run, every `start` call happens with no interval
active (as in the repository, where `start` runs once at boot). -/
def startsGuarded (ops : List Op) (st : DecayState) : Prop :=
  match ops with
  | [] => True
  | op :: rest =>
      (isStartOp op = true → st.activeTimers = []) ∧ startsGuarded rest (applyOp op st).1

instance : ∀ (ops : List Op) (st : DecayState), Decidable (startsGuarded ops st) := by
  intro ops
  induction ops with
  | nil => intro st; exact isTrue trivial
  | cons op rest ih =>
      intro st
      have : Decidable ((isStartOp op = true → st.activeTimers = []) ∧
          startsGuarded rest (applyOp op st).1) := @instDecidableAnd _ _ _ (ih _)
      simpa [startsGuarded] using this

/-- Stage of the standard-mode bucket for elapsed time `t` (ms), written from
the specification: `t` is compared against the cumulative thresholds
healthy, healthy+panic, healthy+panic+decay. -/
def bucketStage (t : Nat) : Stage :=
  if t < 24000 then Stage.healthy
  else if t < 27000 then Stage.panic
  else if t < 30000 then Stage.decay
  else Stage.death

/-- Fractional position of elapsed time `t` within its bucket, written from
the specification (the subtraction of the preceding bucket durations is kept
sequential, as the tick computes it). -/
def bucketProgress (t : Nat) : ℚ :=
  if t < 24000 then (t : ℚ) / 24000
  else if t < 27000 then ((t : ℚ) - 24000) / 3000
  else if t < 30000 then ((t : ℚ) - 24000 - 3000) / 3000
  else ((t : ℚ) - 24000 - 3000 - 3000) / 2000

/-- Position of a stage along the standard lifecycle, for stating that the
bucket assignment is monotonic in elapsed time. -/
def stageIdx : Stage → Nat
  | Stage.healthy => 0
  | Stage.panic => 1
  | Stage.decay => 2
  | Stage.death => 3
  | Stage.pirate => 4

/-- Progress reported by the transition loop at instant `n` for a transition
started at `t0` with duration `d`. -/
def transProgress (t0 n : Nat) (d : ℚ) : ℚ :=
  min (((n : ℚ) - (t0 : ℚ)) / d) 1

/-- The prefix of the instants at which the transition interval actually
fires: everything up to and including the first instant whose progress
reaches 1, after which the interval is cancelled. -/
def liveTimes (t0 : Nat) (d : ℚ) : List Nat → List Nat
  | [] => []
  | n :: rest =>
      if 1 ≤ transProgress t0 n d then [n] else n :: liveTimes t0 d rest

/-- Whether some instant of the list reaches transition completion. -/
def completes (t0 : Nat) (d : ℚ) (times : List Nat) : Prop :=
  ∃ n ∈ times, 1 ≤ transProgress t0 n d

instance (t0 : Nat) (d : ℚ) (times : List Nat) : Decidable (completes t0 d times) :=
  List.decidableBEx _ times

/-- Gain nodes of the audio engine whose targets the model records. -/
inductive GainNode where
  | humG
  | harmonic2G
  | harmonic3G
  | schumannG
  | schumannHarmonicG
deriving DecidableEq, Repr

/-- Observable effects of the audio engine's volume machinery: an absolute
`gain.value` assignment at node creation, an `exponentialRampToValueAtTime`
ramp, or the teardown of the hum node graphs. -/
inductive AudioEvent where
  | gainSet (node : GainNode) (target : ℚ)
  | gainRamp (node : GainNode) (target : ℚ)
  | cleanup
deriving DecidableEq, Repr

/-- State of the `LeakWormAudio` instance (`src/unnamed/part_000`), restricted
to the volume machinery: the discrete level, the mode flags, whether the CRT
hum and Schumann node trios currently exist, and the current value of the
primary hum gain (carried to show that new targets never read it). -/
structure AudioState where
  volumeLevel : Nat
  ready : Bool
  baseVolume : ℚ
  isDeathSequence : Bool
  isPirateMode : Bool
  humSetup : Bool
  schumannSetup : Bool
  humGain : ℚ
deriving DecidableEq, Repr

/-- The constructor field values relevant to the volume machinery
(`volumeLevel = 1`, `baseVolume = 0.04`). -/
def initAudioState : AudioState :=
  { volumeLevel := 1
    ready := false
    baseVolume := 1 / 25
    isDeathSequence := false
    isPirateMode := false
    humSetup := false
    schumannSetup := false
    humGain := 0 }

/-- The `volumeMultipliers` table `[0, 0.3, 0.6, 1.0]` indexed by level
(levels are produced by the `% 4` cycle, so the lookup is always in range). -/
def multOf (level : Nat) : ℚ :=
  List.getD [0, 3 / 10, 3 / 5, 1] level 0

/-- The `cleanupCRTHum` method: stops and drops the hum trio (teardown errors
are swallowed, so this is total). -/
def cleanupCRTHum (st : AudioState) : AudioState :=
  { st with humSetup := false, humGain := 0 }

/-- The `cleanupSchumannHum` method. -/
def cleanupSchumannHum (st : AudioState) : AudioState :=
  { st with schumannSetup := false }

/-- The `setupCRTHum` method: tears down any existing hum, bails out in death
or pirate mode, and otherwise creates the oscillator trio with absolute gain
values `base`, `base*0.3`, `base*0.15` where
`base = baseVolume * volumeMultipliers[volumeLevel]`. -/
def setupCRTHum (st : AudioState) : AudioState × List AudioEvent :=
  let st1 := cleanupCRTHum st
  if st1.isDeathSequence || st1.isPirateMode then (st1, [])
  else
    let base := st1.baseVolume * multOf st1.volumeLevel
    ({ st1 with humSetup := true, humGain := base },
     [AudioEvent.gainSet GainNode.humG base,
      AudioEvent.gainSet GainNode.harmonic2G (base * (3 / 10)),
      AudioEvent.gainSet GainNode.harmonic3G (base * (3 / 20))])

/-- The `setupSchumannHum` method: absolute gains `base*1.8` and `base*0.6`. -/
def setupSchumannHum (st : AudioState) : AudioState × List AudioEvent :=
  let st1 := cleanupSchumannHum st
  let base := st1.baseVolume * multOf st1.volumeLevel
  ({ st1 with schumannSetup := true },
   [AudioEvent.gainSet GainNode.schumannG (base * (9 / 5)),
    AudioEvent.gainSet GainNode.schumannHarmonicG (base * (3 / 5))])

/-- The `updateHumVolumes` method: computes the target as an absolute value
`baseVolume * volumeMultipliers[volumeLevel]` and ramps every live gain node
to `max(0.001, target * nodeFactor)` — the current gain value is never read. -/
def updateHumVolumes (st : AudioState) : AudioState × List AudioEvent :=
  let target := st.baseVolume * multOf st.volumeLevel
  let crtEvs :=
    if st.humSetup then
      [AudioEvent.gainRamp GainNode.humG (max (1 / 1000) target),
       AudioEvent.gainRamp GainNode.harmonic2G (max (1 / 1000) (target * (3 / 10))),
       AudioEvent.gainRamp GainNode.harmonic3G (max (1 / 1000) (target * (3 / 20)))]
    else []
  let schEvs :=
    if st.schumannSetup then
      [AudioEvent.gainRamp GainNode.schumannG (max (1 / 1000) (target * (9 / 5))),
       AudioEvent.gainRamp GainNode.schumannHarmonicG (max (1 / 1000) (target * (3 / 5)))]
    else []
  ({ st with humGain := if st.humSetup then max (1 / 1000) target else st.humGain },
   crtEvs ++ schEvs)

/-- The `setVolumeLevel` method: stores the level; level 0 tears everything
down, otherwise the appropriate hum is created if missing (with absolute
gains) or the existing one is ramped to the new absolute target. -/
def setVolumeLevel (level : Nat) (st : AudioState) : AudioState × List AudioEvent :=
  let st1 := { st with volumeLevel := level }
  if st1.volumeLevel = 0 then
    (cleanupSchumannHum (cleanupCRTHum st1), [AudioEvent.cleanup])
  else if st1.isPirateMode && !st1.schumannSetup then setupSchumannHum st1
  else if !st1.isPirateMode && !st1.isDeathSequence && !st1.humSetup then setupCRTHum st1
  else updateHumVolumes st1

/-- The volume-button click handler's cycle step:
`setVolumeLevel((volumeLevel + 1) % 4)`. -/
def cycleClick (st : AudioState) : AudioState × List AudioEvent :=
  setVolumeLevel ((st.volumeLevel + 1) % 4) st

/-- Runs a sequence of `setVolumeLevel` calls, keeping each call's events as a
separate list. -/
def runVolume (levels : List Nat) (st : AudioState) : AudioState × List (List AudioEvent) :=
  match levels with
  | [] => (st, [])
  | lv :: rest =>
      let r1 := setVolumeLevel lv st
      let r2 := runVolume rest r1.1
      (r2.1, r1.2 :: r2.2)

/-- Extracts from an event the primary-hum gain target it sets, if any. -/
def pickHum : AudioEvent → Option ℚ
  | AudioEvent.gainSet GainNode.humG q => some q
  | AudioEvent.gainRamp GainNode.humG q => some q
  | _ => none

/-- The primary-hum gain target produced by one `setVolumeLevel` call: the
value assigned or ramped to on the hum gain node, or 0 when the call tore the
node graph down. -/
def humTargetOfCall (evs : List AudioEvent) : ℚ :=
  match evs.findSome? pickHum with
  | some q => q
  | none => 0

/-- All gain targets mentioned by a list of audio events. -/
def audioTargets (evs : List AudioEvent) : List ℚ :=
  evs.filterMap (fun e =>
    match e with
    | AudioEvent.gainSet _ q => some q
    | AudioEvent.gainRamp _ q => some q
    | AudioEvent.cleanup => none)

/-- Stage argument as the beam module receives it: one of the five known
stage names, or any other value. -/
inductive BeamStageInput where
  | known (s : Stage)
  | unknown
deriving DecidableEq, Repr

/-- State of the `BeamModule` instance (`src/unnamed/part_001`), restricted to
scan-speed handling: the pause flag, the current cycle duration in seconds,
and the last value written to the `--beam-speed` CSS variable. -/
structure BeamState where
  isPaused : Bool
  currentSpeed : Nat
  speedVar : Option Nat
deriving DecidableEq, Repr

/-- The `speeds` table of `BeamModule.syncToDecay`: 8s healthy, 5s panic,
15s decay, 0 death, 8s pirate; an unknown key yields no entry. -/
def beamSpeeds : BeamStageInput → Option Nat
  | BeamStageInput.known Stage.healthy => some 8
  | BeamStageInput.known Stage.panic => some 5
  | BeamStageInput.known Stage.decay => some 15
  | BeamStageInput.known Stage.death => some 0
  | BeamStageInput.known Stage.pirate => some 8
  | BeamStageInput.unknown => none

/-- JS `v || dflt` on an optional number: the default is used both when the
lookup missed and when the value is 0 (0 is falsy). -/
def jsOrNat (v : Option Nat) (dflt : Nat) : Nat :=
  match v with
  | none => dflt
  | some x => if x = 0 then dflt else x

/-- The `BeamModule.pause` method. -/
def beamPause (st : BeamState) : BeamState :=
  { st with isPaused := true }

/-- The `BeamModule.syncToDecay` method: computes
`newSpeed = speeds[stage] || 8`, and only when that differs from the current
speed writes the CSS variable and, at the death stage, pauses the animation. -/
def beamSyncToDecay (stage : BeamStageInput) (st : BeamState) : BeamState :=
  let newSpeed := jsOrNat (beamSpeeds stage) 8
  if newSpeed ≠ st.currentSpeed then
    let st1 := { st with currentSpeed := newSpeed, speedVar := some newSpeed }
    if stage = BeamStageInput.known Stage.death then beamPause st1 else st1
  else st

/-- State of the `ParticleDrift` instance (`src/particles.js`), restricted to
decay synchronisation: the recorded stage, the last value written to the
`--particle-decay-multiplier` CSS variable, and the per-layer particle opacity
lists (one rational opacity per particle, in DOM order). -/
structure ParticleState where
  decayState : Stage
  multiplierVar : Option ℚ
  layers : List (List ℚ)
deriving DecidableEq, Repr

/-- The `opacityMultipliers` table of `ParticleDrift.syncToDecay`; the pirate
stage has no entry. -/
def opacityMultipliersOf : Stage → Option ℚ
  | Stage.healthy => some 1
  | Stage.panic => some (4 / 5)
  | Stage.decay => some (1 / 2)
  | Stage.death => some (1 / 5)
  | Stage.pirate => none

/-- JS `v || dflt` on an optional rational. -/
def jsOrRat (v : Option ℚ) (dflt : ℚ) : ℚ :=
  match v with
  | none => dflt
  | some x => if x = 0 then dflt else x

/-- The stage-derived layer opacity multiplier,
`opacityMultipliers[stage] || 1.0`. -/
def particleMult (s : Stage) : ℚ :=
  jsOrRat (opacityMultipliersOf s) 1

/-- The per-layer body of `fadeOutRandomParticles(targetFrac)`: particles with
index at or beyond `floor(count * targetFrac)` get opacity 0. -/
def fadeOutLayer (targetFrac : ℚ) (ps : List ℚ) : List ℚ :=
  let targetCount := Nat.floor ((ps.length : ℚ) * targetFrac)
  ps.mapIdx (fun i p => if targetCount ≤ i then 0 else p)

/-- The `ParticleDrift.syncToDecay` method: records the stage, writes the
stage multiplier to the CSS variable, and during decay / death fades out the
tail of every layer (fractions 0.4 and 0). -/
def particleSyncToDecay (stage : Stage) (st : ParticleState) : ParticleState :=
  let st1 := { st with decayState := stage, multiplierVar := some (particleMult stage) }
  if stage = Stage.decay then
    { st1 with layers := st1.layers.map (fadeOutLayer (2 / 5)) }
  else if stage = Stage.death then
    { st1 with layers := st1.layers.map (fadeOutLayer 0) }
  else st1

/-- Extracts the listener-invocation record carried by an event, if any. -/
def callRecordOf : Event → Option (Nat × Stage × ℚ)
  | Event.listenerCalled i s p => some (i, s, p)
  | _ => none

/-- Whether an event records a swallowed listener error. -/
def isErrorCaughtEv : Event → Bool
  | Event.errorCaught _ => true
  | _ => false

/-- Whether an event records a `notify()` broadcast. -/
def isNotifiedEv : Event → Bool
  | Event.notified _ _ => true
  | _ => false

/-- A standard-mode controller state used by the concrete scenarios: the
literal initial object with `permanentPirateMode` off, a healthy stage and an
interaction stamp at time 0. -/
def stScenario : DecayState :=
  { initState with permanentPirateMode := false, stage := Stage.healthy,
                   lastInteraction := some 0 }

theorem notifyList_filterMap (ls : List Listener) (s : Stage) (p : ℚ) :
    (notifyList ls s p).filterMap callRecordOf = ls.map (fun l => (l.id, s, p)) := by
  induction ls with
  | nil => simp [notifyList]
  | cons l rest ih =>
      by_cases h : l.throws <;>
        simp [notifyList, runListener, h, callRecordOf, ih]

theorem notifyList_countP_err (ls : List Listener) (s : Stage) (p : ℚ) :
    (notifyList ls s p).countP isErrorCaughtEv = ls.countP (fun l => l.throws) := by
  induction ls with
  | nil => simp [notifyList]
  | cons l rest ih =>
      by_cases h : l.throws <;>
        simp [notifyList, runListener, h, isErrorCaughtEv, List.countP_cons, ih]

theorem notifyList_countP_notified (ls : List Listener) (s : Stage) (p : ℚ) :
    (notifyList ls s p).countP isNotifiedEv = 0 := by
  induction ls with
  | nil => simp [notifyList]
  | cons l rest ih =>
      by_cases h : l.throws <;>
        simp [notifyList, runListener, h, isNotifiedEv, List.countP_cons, ih]

theorem notifyList_count_cb (ls : List Listener) (s : Stage) (p : ℚ) (c : CbId) :
    (notifyList ls s p).count (Event.cbInvoked c) = 0 := by
  induction ls with
  | nil => simp [notifyList]
  | cons l rest ih =>
      by_cases h : l.throws <;>
        simp [notifyList, runListener, h, List.count_cons, ih]

theorem notifyList_count_timeout (ls : List Listener) (s : Stage) (p : ℚ) (q : ℚ) :
    (notifyList ls s p).count (Event.timeoutScheduled q) = 0 := by
  induction ls with
  | nil => simp [notifyList]
  | cons l rest ih =>
      by_cases h : l.throws <;>
        simp [notifyList, runListener, h, List.count_cons, ih]

theorem notifyList_count_transStarted (ls : List Listener) (s : Stage) (p : ℚ)
    (ts : Stage) (d : ℚ) :
    (notifyList ls s p).count (Event.transitionStarted ts d) = 0 := by
  induction ls with
  | nil => simp [notifyList]
  | cons l rest ih =>
      by_cases h : l.throws <;>
        simp [notifyList, runListener, h, List.count_cons, ih]

theorem clearTimerField_of_inv (st : DecayState) (h : timersInv st = true) :
    clearTimerField st = { st with timer := none, activeTimers := [] } := by
  obtain ⟨sg, pr, li, tm, ls, dead, pm, tr, tst, td, tcb, tts, pvs, acts, nid⟩ := st
  unfold timersInv at h
  unfold clearTimerField
  rcases tm with _ | id
  · rcases acts with _ | ⟨p, rest⟩
    · rfl
    · simp at h
  · rcases acts with _ | ⟨p, rest⟩
    · simp at h
    · rcases rest with _ | ⟨p2, rest2⟩
      · simp only [beq_iff_eq] at h
        simp [List.filter_cons, h]
      · simp at h

theorem fadeOutLayer_getD (f : ℚ) (ps : List ℚ) (i : Nat) (hi : i < ps.length) :
    (fadeOutLayer f ps).getD i 1 =
      if Nat.floor ((ps.length : ℚ) * f) ≤ i then 0 else ps.getD i 1 := by
  have hlen : (fadeOutLayer f ps).length = ps.length := by
    simp [fadeOutLayer]
  have hi2 : i < (fadeOutLayer f ps).length := by rw [hlen]; exact hi
  rw [List.getD_eq_getElem _ _ hi2, List.getD_eq_getElem _ _ hi]
  have h3 := List.get_mapIdx ps
    (fun j p => if Nat.floor ((ps.length : ℚ) * f) ≤ j then 0 else p) i hi
  simp only [fadeOutLayer, List.get_eq_getElem] at h3
  exact h3

theorem startTransition_eq (now : Nat) (toS : Stage) (dur : ℚ) (cb : Option CbId)
    (st : DecayState) :
    startTransition now toS dur cb st =
      (installTimer TimerKind.transUpdate
        { clearTimerField { st with previousStage := some st.stage } with
            isTransitioning := true
            transitionStartTime := some now
            transitionDuration := some dur
            transitionToStage := some toS
            transitionCallback := cb },
       [Event.transitionStarted toS dur]) := rfl

theorem startTransition_of_inv (st : DecayState) (h : timersInv st = true)
    (now : Nat) (toS : Stage) (dur : ℚ) (cb : Option CbId) :
    startTransition now toS dur cb st =
      ({ st with
           previousStage := some st.stage
           timer := some st.nextTimerId
           activeTimers := [(st.nextTimerId, TimerKind.transUpdate)]
           nextTimerId := st.nextTimerId + 1
           isTransitioning := true
           transitionStartTime := some now
           transitionDuration := some dur
           transitionToStage := some toS
           transitionCallback := cb },
       [Event.transitionStarted toS dur]) := by
  have h1 : timersInv { st with previousStage := some st.stage } = true := by
    unfold timersInv at h ⊢
    exact h
  rw [startTransition_eq, clearTimerField_of_inv _ h1]
  rfl

theorem updateTransition_eq (tf : Nat) (st : DecayState) (t0 : Nat) (d : ℚ) (toS : Stage)
    (hst : st.transitionStartTime = some t0)
    (hd : st.transitionDuration = some d)
    (hts : st.transitionToStage = some toS) :
    updateTransition tf st =
      if 1 ≤ min (((tf : ℚ) - (t0 : ℚ)) / d) 1 then
        match st.transitionCallback with
        | some c =>
            (applyCb c
              { clearTimerField
                  { st with progress := min (((tf : ℚ) - (t0 : ℚ)) / d) 1, stage := toS } with
                  isTransitioning := false, transitionCallback := none },
             notifyEvents toS (min (((tf : ℚ) - (t0 : ℚ)) / d) 1) st.listeners
               ++ [Event.cbInvoked c])
        | none =>
            ({ clearTimerField
                 { st with progress := min (((tf : ℚ) - (t0 : ℚ)) / d) 1, stage := toS } with
                 isTransitioning := false, transitionCallback := none },
             notifyEvents toS (min (((tf : ℚ) - (t0 : ℚ)) / d) 1) st.listeners)
      else
        ({ st with progress := min (((tf : ℚ) - (t0 : ℚ)) / d) 1, stage := toS },
         notifyEvents toS (min (((tf : ℚ) - (t0 : ℚ)) / d) 1) st.listeners) := by
  obtain ⟨sg, pr, li, tm, ls, dead, pm, tr, tst, td, tcb, tts, pvs, acts, nid⟩ := st
  simp only at hst hd hts
  subst hst
  subst hd
  subst hts
  unfold updateTransition transProgAt transStartOf transDurOf transToOf
  split <;> rfl

theorem fireTimer_single_trans (id : Nat) (now : Nat) (st : DecayState)
    (h : st.activeTimers = [(id, TimerKind.transUpdate)]) :
    fireTimer id now st = updateTransition now st := by
  unfold fireTimer
  rw [h]
  simp [List.find?_cons]

theorem fire_fresh_transition (st : DecayState) (h : timersInv st = true)
    (now tf : Nat) (toS : Stage) (dur : ℚ) (c : CbId)
    (hcomp : 1 ≤ ((tf : ℚ) - (now : ℚ)) / dur) :
    fireTimer st.nextTimerId tf (startTransition now toS dur (some c) st).1 =
      (applyCb c
        { st with
            previousStage := some st.stage
            timer := none
            activeTimers := []
            nextTimerId := st.nextTimerId + 1
            isTransitioning := false
            transitionStartTime := some now
            transitionDuration := some dur
            transitionToStage := some toS
            transitionCallback := none
            stage := toS
            progress := min (((tf : ℚ) - (now : ℚ)) / dur) 1 },
       notifyEvents toS (min (((tf : ℚ) - (now : ℚ)) / dur) 1) st.listeners
         ++ [Event.cbInvoked c]) := by
  rw [startTransition_of_inv st h now toS dur (some c)]
  rw [fireTimer_single_trans _ _ _ rfl]
  rw [updateTransition_eq tf _ now dur toS rfl rfl rfl]
  rw [if_pos (le_min hcomp le_rfl)]
  have h2 : timersInv
      { st with
          previousStage := some st.stage
          timer := some st.nextTimerId
          activeTimers := [(st.nextTimerId, TimerKind.transUpdate)]
          nextTimerId := st.nextTimerId + 1
          isTransitioning := true
          transitionStartTime := some now
          transitionDuration := some dur
          transitionToStage := some toS
          transitionCallback := some c
          progress := min (((tf : ℚ) - (now : ℚ)) / dur) 1
          stage := toS } = true := by
    simp [timersInv]
  rw [clearTimerField_of_inv _ h2]

theorem setVolumeLevel_level (lv : Nat) (st : AudioState) :
    ((setVolumeLevel lv st).1).volumeLevel = lv := by
  unfold setVolumeLevel setupSchumannHum setupCRTHum updateHumVolumes
    cleanupCRTHum cleanupSchumannHum
  dsimp only
  split_ifs <;> rfl

/-- Audio state as after initialization at the default level 1 with the CRT
hum running; the current hum gain value is an arbitrary `g`, carried to show
that subsequent volume targets never read it. -/
def audioScenarioState (g : ℚ) : AudioState :=
  { initAudioState with ready := true, humSetup := true, humGain := g }

/-- The per-call audio event lists produced by the volume-cycle scenario
(levels 0, 1, 2, 3, 0, 1 in succession): teardown at level 0, absolute-gain
node creation at base*0.3 when the hum is rebuilt at level 1, and absolute
ramps at base*0.6 and base*1.0 (floored at 0.001) for levels 2 and 3. -/
def volumeCycleEvents : List (List AudioEvent) :=
  [[AudioEvent.cleanup],
   [AudioEvent.gainSet GainNode.humG (1 / 25 * (3 / 10)),
    AudioEvent.gainSet GainNode.harmonic2G (1 / 25 * (3 / 10) * (3 / 10)),
    AudioEvent.gainSet GainNode.harmonic3G (1 / 25 * (3 / 10) * (3 / 20))],
   [AudioEvent.gainRamp GainNode.humG (max (1 / 1000) (1 / 25 * (3 / 5))),
    AudioEvent.gainRamp GainNode.harmonic2G (max (1 / 1000) (1 / 25 * (3 / 5) * (3 / 10))),
    AudioEvent.gainRamp GainNode.harmonic3G (max (1 / 1000) (1 / 25 * (3 / 5) * (3 / 20)))],
   [AudioEvent.gainRamp GainNode.humG (max (1 / 1000) (1 / 25 * 1)),
    AudioEvent.gainRamp GainNode.harmonic2G (max (1 / 1000) (1 / 25 * 1 * (3 / 10))),
    AudioEvent.gainRamp GainNode.harmonic3G (max (1 / 1000) (1 / 25 * 1 * (3 / 20)))],
   [AudioEvent.cleanup],
   [AudioEvent.gainSet GainNode.humG (1 / 25 * (3 / 10)),
    AudioEvent.gainSet GainNode.harmonic2G (1 / 25 * (3 / 10) * (3 / 10)),
    AudioEvent.gainSet GainNode.harmonic3G (1 / 25 * (3 / 10) * (3 / 20))]]

/-- C7: the volume level stays in {0,1,2,3} under the cycling button (it is
`(level+1) % 4` after every click, and starts at 1), and the six-call cycle
through levels 0,1,2,3,0,1 produces primary-hum gain targets equal to
`baseVolume * [0, 0.3, 0.6, 1.0, 0, 0.3]` in order — computed absolutely from
the base volume 0.04, independent of the pre-existing gain value `g` — and
every gain target emitted during the cycle lies in `[0, baseVolume]`. -/
theorem c7_volume_cycle (g : ℚ) :
    (∀ st : AudioState, ((cycleClick st).1).volumeLevel < 4) ∧
    initAudioState.volumeLevel = 1 ∧
    (runVolume [0, 1, 2, 3, 0, 1] (audioScenarioState g)).2 = volumeCycleEvents ∧
    volumeCycleEvents.map humTargetOfCall =
      [(1 / 25) * 0, (1 / 25) * (3 / 10), (1 / 25) * (3 / 5),
       (1 / 25) * 1, (1 / 25) * 0, (1 / 25) * (3 / 10)] ∧
    (∀ q ∈ audioTargets volumeCycleEvents.flatten, 0 ≤ q ∧ q ≤ 1 / 25) := by
  refine ⟨?_, rfl, rfl, ?_, ?_⟩
  · intro st
    have h := setVolumeLevel_level ((st.volumeLevel + 1) % 4) st
    unfold cycleClick
    rw [h]
    exact Nat.mod_lt _ (by norm_num)
  · show [(0 : ℚ), 1 / 25 * (3 / 10), max (1 / 1000) (1 / 25 * (3 / 5)),
          max (1 / 1000) (1 / 25 * 1), 0, 1 / 25 * (3 / 10)] = _
    norm_num [max_def]
  · intro q hq
    have hq2 : q ∈ [1 / 25 * (3 / 10), 1 / 25 * (3 / 10) * (3 / 10),
        1 / 25 * (3 / 10) * (3 / 20), max (1 / 1000) ((1 : ℚ) / 25 * (3 / 5)),
        max (1 / 1000) ((1 : ℚ) / 25 * (3 / 5) * (3 / 10)),
        max (1 / 1000) ((1 : ℚ) / 25 * (3 / 5) * (3 / 20)),
        max (1 / 1000) ((1 : ℚ) / 25 * 1),
        max (1 / 1000) ((1 : ℚ) / 25 * 1 * (3 / 10)),
        max (1 / 1000) ((1 : ℚ) / 25 * 1 * (3 / 20)),
        1 / 25 * (3 / 10), 1 / 25 * (3 / 10) * (3 / 10),
        1 / 25 * (3 / 10) * (3 / 20)] := hq
    fin_cases hq2 <;> constructor <;> norm_num [max_def]

/-- Closed witness for the C7 theorem at `g = 37`. -/
theorem c7_volume_cycle_witness :
    (runVolume [0, 1, 2, 3, 0, 1] (audioScenarioState 37)).2 = volumeCycleEvents ∧
    ((0 : ℚ) ≤ 1 / 25 * (3 / 10) ∧ (1 : ℚ) / 25 * (3 / 10) ≤ 1 / 25) := by
  have h := c7_volume_cycle 37
  refine ⟨h.2.2.1, h.2.2.2.2 (1 / 25 * (3 / 10)) ?_⟩
  show 1 / 25 * (3 / 10) ∈ [(1 : ℚ) / 25 * (3 / 10), 1 / 25 * (3 / 10) * (3 / 10),
      1 / 25 * (3 / 10) * (3 / 20), max (1 / 1000) ((1 : ℚ) / 25 * (3 / 5)),
      max (1 / 1000) ((1 : ℚ) / 25 * (3 / 5) * (3 / 10)),
      max (1 / 1000) ((1 : ℚ) / 25 * (3 / 5) * (3 / 20)),
      max (1 / 1000) ((1 : ℚ) / 25 * 1),
      max (1 / 1000) ((1 : ℚ) / 25 * 1 * (3 / 10)),
      max (1 / 1000) ((1 : ℚ) / 25 * 1 * (3 / 20)),
      1 / 25 * (3 / 10), 1 / 25 * (3 / 10) * (3 / 10),
      1 / 25 * (3 / 10) * (3 / 20)]
  exact List.mem_cons_self _ _

/-- C8: the beam speed table does configure speed 0 for the death stage, but
`speeds[stage] || 8` treats 0 as falsy, so `syncToDecay('death', _)` computes
`newSpeed = 8`; arriving at death while the current speed is already 8 (for
example straight from healthy or pirate) changes nothing and never pauses the
animation, contradicting the claimed frozen death behaviour.  The unknown-key
fallback to 8 does hold. -/
theorem c8_beam_death_speed :
    beamSpeeds (BeamStageInput.known Stage.death) = some 0 ∧
    jsOrNat (beamSpeeds (BeamStageInput.known Stage.death)) 8 = 8 ∧
    beamSyncToDecay (BeamStageInput.known Stage.death)
        { isPaused := false, currentSpeed := 8, speedVar := none } =
      { isPaused := false, currentSpeed := 8, speedVar := none } ∧
    jsOrNat (beamSpeeds BeamStageInput.unknown) 8 = 8 ∧
    beamSyncToDecay BeamStageInput.unknown
        { isPaused := false, currentSpeed := 15, speedVar := none } =
      { isPaused := false, currentSpeed := 8, speedVar := some 8 } := by decide

theorem particleMult_eval :
    particleMult Stage.healthy = 1 ∧ particleMult Stage.panic = 4 / 5 ∧
    particleMult Stage.decay = 1 / 2 ∧ particleMult Stage.death = 1 / 5 ∧
    particleMult Stage.pirate = 1 := by
  norm_num [particleMult, opacityMultipliersOf, jsOrRat]

/-- C9: on stage decay every layer fades exactly the particles with index at
or beyond `floor(0.4 * n)` to opacity 0 (indices below keep their opacity),
on death all of them; the recorded per-layer multiplier is 1.0, 0.8, 0.5, 0.2
for healthy, panic, decay, death and 1.0 for a stage without a table entry. -/
theorem c9_particle_fade :
    (∀ st : ParticleState,
      (particleSyncToDecay Stage.decay st).layers =
        st.layers.map (fadeOutLayer (2 / 5)) ∧
      (particleSyncToDecay Stage.decay st).multiplierVar = some (1 / 2) ∧
      (particleSyncToDecay Stage.death st).layers = st.layers.map (fadeOutLayer 0) ∧
      (particleSyncToDecay Stage.death st).multiplierVar = some (1 / 5)) ∧
    (∀ ps : List ℚ, ∀ i : Nat, i < ps.length → (∀ q ∈ ps, q ≠ 0) →
      ((fadeOutLayer (2 / 5) ps).getD i 1 = 0 ↔
        Nat.floor ((ps.length : ℚ) * (2 / 5)) ≤ i)) ∧
    (∀ ps : List ℚ, ∀ i : Nat, i < ps.length → (fadeOutLayer 0 ps).getD i 1 = 0) ∧
    (particleMult Stage.healthy = 1 ∧ particleMult Stage.panic = 4 / 5 ∧
     particleMult Stage.decay = 1 / 2 ∧ particleMult Stage.death = 1 / 5 ∧
     particleMult Stage.pirate = 1) := by
  refine ⟨?_, ?_, ?_, particleMult_eval⟩
  · intro st
    refine ⟨rfl, ?_, rfl, ?_⟩
    · show some (particleMult Stage.decay) = some (1 / 2)
      rw [particleMult_eval.2.2.1]
    · show some (particleMult Stage.death) = some (1 / 5)
      rw [particleMult_eval.2.2.2.1]
  · intro ps i hi hp
    rw [fadeOutLayer_getD _ _ _ hi]
    by_cases hf : Nat.floor ((ps.length : ℚ) * (2 / 5)) ≤ i
    · simp [hf]
    · simp only [if_neg hf]
      constructor
      · intro h0
        exfalso
        have hmem : ps.getD i 1 ∈ ps := by
          rw [List.getD_eq_getElem _ _ hi]
          exact List.getElem_mem _
        exact hp _ hmem h0
      · intro h
        exact absurd h hf
  · intro ps i hi
    rw [fadeOutLayer_getD _ _ _ hi]
    simp

/-- Closed witness for the C9 theorem on a five-particle layer. -/
theorem c9_particle_fade_witness :
    (fadeOutLayer (2 / 5) [1, 1, 1, 1, 1]).getD 4 1 = 0 ∧
    (fadeOutLayer 0 [1, 1, 1, 1, 1]).getD 0 1 = 0 := by
  constructor
  · refine (c9_particle_fade.2.1 [1, 1, 1, 1, 1] 4 (by norm_num) (by simp)).mpr ?_
    norm_num
  · exact c9_particle_fade.2.2.1 [1, 1, 1, 1, 1] 0 (by norm_num)

/-- C6: `notify()` hands every registered listener, in insertion order, the
same `(stage, progress)` pair; a listener that raises does not stop later
listeners (its error is caught, one per listener) and the controller state is
unchanged by the broadcast. -/
theorem c6_notify_isolation (st : DecayState) :
    (notify st).1 = st ∧
    (notify st).2.filterMap callRecordOf =
      st.listeners.map (fun l => (l.id, st.stage, st.progress)) ∧
    (notify st).2.countP isErrorCaughtEv = st.listeners.countP (fun l => l.throws) := by
  refine ⟨rfl, ?_, ?_⟩
  · simp [notify, notifyEvents, callRecordOf, notifyList_filterMap]
  · simp [notify, notifyEvents, List.countP_cons, isErrorCaughtEv, notifyList_countP_err]

/-- C5: in permanent-pirate mode `start()` freezes the controller at stage
pirate with progress 1.0, broadcasts exactly once, installs no interval, and
`reset()` in that mode is the identity on the controller state. -/
theorem c5_permanent_pirate_start (st : DecayState) (now : Nat)
    (hp : st.permanentPirateMode = true) :
    ((start now st).1.stage = Stage.pirate) ∧
    ((start now st).1.progress = 1) ∧
    ((start now st).1.timer = st.timer) ∧
    ((start now st).1.activeTimers = st.activeTimers) ∧
    ((start now st).1.lastInteraction = some now) ∧
    ((start now st).2 = notifyEvents Stage.pirate 1 st.listeners) ∧
    ((start now st).2.countP isNotifiedEv = 1) ∧
    (∀ m, reset m (start now st).1 = (start now st).1) := by
  have hs : start now st =
      ({ st with isDead := false, isTransitioning := false, lastInteraction := some now,
                 stage := Stage.pirate, progress := 1 },
       notifyEvents Stage.pirate 1 st.listeners) := by
    unfold start notify
    dsimp only
    split
    · rfl
    · rename_i hcond
      exact absurd hp (by simpa using hcond)
  rw [hs]
  refine ⟨rfl, rfl, rfl, rfl, rfl, rfl, ?_, ?_⟩
  · simp [notifyEvents, List.countP_cons, notifyList_countP_notified, isNotifiedEv]
  · intro m
    unfold reset
    simp [hp]

/-- Closed witness for the C5 theorem on the literal initial state. -/
theorem c5_permanent_pirate_start_witness :
    initState.permanentPirateMode = true ∧
    (start 0 initState).1.stage = Stage.pirate ∧
    (start 0 initState).1.progress = 1 ∧
    (start 0 initState).1.activeTimers = [] ∧
    reset 5 (start 0 initState).1 = (start 0 initState).1 := by
  have h := c5_permanent_pirate_start initState 0 rfl
  exact ⟨rfl, h.1, h.2.1, h.2.2.2.1.trans rfl, h.2.2.2.2.2.2.2 5⟩

/-- C3 counterexample: with the controller alive in standard mode, a second
`beginDeath()` call 100ms after the first — while the death transition is
still running (`isTransitioning` is true and `isDead` still false) — passes
the `isDead` guard and repeats the whole body: the run schedules the
75%-of-death-duration timeout twice and starts a transition twice, refuting
the claimed single scheduling. -/
theorem c3_beginDeath_counterexample :
    (beginDeath 30000 stScenario).1.isTransitioning = true ∧
    (beginDeath 30000 stScenario).1.isDead = false ∧
    ((standardTiming.death : ℚ) * (3 / 4) = 1500) ∧
    ((beginDeath 30000 stScenario).2 ++
       (beginDeath 30100 (beginDeath 30000 stScenario).1).2 =
      [Event.timeoutScheduled ((standardTiming.death : ℚ) * (3 / 4)),
       Event.transitionStarted Stage.death (standardTiming.death : ℚ),
       Event.timeoutScheduled ((standardTiming.death : ℚ) * (3 / 4)),
       Event.transitionStarted Stage.death (standardTiming.death : ℚ)]) ∧
    ¬ (((beginDeath 30000 stScenario).2 ++
         (beginDeath 30100 (beginDeath 30000 stScenario).1).2).count
           (Event.timeoutScheduled 1500) = 1) ∧
    ((beginDeath 30000 stScenario).2 ++
       (beginDeath 30100 (beginDeath 30000 stScenario).1).2).count
         (Event.timeoutScheduled 1500) = 2 ∧
    ((beginDeath 30000 stScenario).2 ++
       (beginDeath 30100 (beginDeath 30000 stScenario).1).2).count
         (Event.transitionStarted Stage.death 2000) = 2 := by
  have hd : (standardTiming.death : ℚ) * (3 / 4) = 1500 := by
    norm_num [standardTiming]
  have hd2 : (standardTiming.death : ℚ) = 2000 := by
    norm_num [standardTiming]
  have hev : (beginDeath 30000 stScenario).2 ++
      (beginDeath 30100 (beginDeath 30000 stScenario).1).2 =
      [Event.timeoutScheduled ((standardTiming.death : ℚ) * (3 / 4)),
       Event.transitionStarted Stage.death (standardTiming.death : ℚ),
       Event.timeoutScheduled ((standardTiming.death : ℚ) * (3 / 4)),
       Event.transitionStarted Stage.death (standardTiming.death : ℚ)] := rfl
  refine ⟨rfl, rfl, hd, hev, ?_, ?_, ?_⟩ <;>
    · rw [hev, hd, hd2]
      simp [List.count_cons]

/-- C4 counterexample: `start()` does not cancel a previously installed
interval before installing a new one, so two successive `start()` calls in
standard mode leave two tick intervals running at once. -/
theorem c4_double_start_counterexample :
    ¬ ((runOps [Op.opStart 0, Op.opStart 100] stScenario).activeTimers.length ≤ 1) ∧
    (runOps [Op.opStart 0, Op.opStart 100] stScenario).activeTimers =
      [(1, TimerKind.tick), (2, TimerKind.tick)] := by decide

theorem beginDeath_eq (now : Nat) (st : DecayState) (hdead : st.isDead = false) :
    beginDeath now st =
      ((startTransition now Stage.death (standardTiming.death : ℚ)
          (some CbId.setDead) st).1,
       Event.timeoutScheduled ((standardTiming.death : ℚ) * (3 / 4)) ::
         (startTransition now Stage.death (standardTiming.death : ℚ)
           (some CbId.setDead) st).2) := by
  unfold beginDeath
  rw [if_neg (by simp [hdead])]
  norm_num [standardTiming]

theorem enterPirateMode_eq (now : Nat) (st : DecayState) :
    enterPirateMode now st =
      ((startTransition now Stage.pirate (pirateColorShiftDuration : ℚ)
          (some CbId.setDeadHide) st).1,
       (startTransition now Stage.pirate (pirateColorShiftDuration : ℚ)
           (some CbId.setDeadHide) st).2 ++
         [Event.timeoutScheduled (pirateFadeOutDuration : ℚ)]) := by
  unfold enterPirateMode
  norm_num [pirateColorShiftDuration, pirateFadeOutDuration]

/-- Events of the double-`beginDeath` run: two calls at `t1` and `t2` while
alive, then the (second) transition interval fires at `tf`. -/
def doubleDeathEvents (st : DecayState) (t1 t2 tf : Nat) : List Event :=
  (beginDeath t1 st).2 ++
    (beginDeath t2 (beginDeath t1 st).1).2 ++
      (fireTimer (beginDeath t1 st).1.nextTimerId tf
        (beginDeath t2 (beginDeath t1 st).1).1).2

/-- Final state of the double-`beginDeath` run. -/
def doubleDeathFinal (st : DecayState) (t1 t2 tf : Nat) : DecayState :=
  (fireTimer (beginDeath t1 st).1.nextTimerId tf
    (beginDeath t2 (beginDeath t1 st).1).1).1

/-- C3 (amended): `beginDeath` is guarded only by `isDead`, so a second call
made while the death transition is still running repeats the body — the run
schedules the 75% side-effect timeout twice and starts a transition twice —
but the completion callback is still invoked exactly once, because the second
`startTransition` replaces the pending timer and callback; when the restarted
transition's interval fires past the death duration, `isDead` becomes true. -/
theorem c3_beginDeath_amended (st : DecayState) (t1 t2 tf : Nat)
    (hinv : timersInv st = true) (hdead : st.isDead = false)
    (hcomp : 1 ≤ ((tf : ℚ) - (t2 : ℚ)) / (standardTiming.death : ℚ)) :
    (beginDeath t1 st).1.isTransitioning = true ∧
    (beginDeath t1 st).1.isDead = false ∧
    (doubleDeathEvents st t1 t2 tf).count
      (Event.timeoutScheduled ((standardTiming.death : ℚ) * (3 / 4))) = 2 ∧
    (doubleDeathEvents st t1 t2 tf).count
      (Event.transitionStarted Stage.death (standardTiming.death : ℚ)) = 2 ∧
    (doubleDeathEvents st t1 t2 tf).count (Event.cbInvoked CbId.setDead) = 1 ∧
    (doubleDeathFinal st t1 t2 tf).isDead = true ∧
    (doubleDeathFinal st t1 t2 tf).activeTimers = [] := by
  have hb1 := beginDeath_eq t1 st hdead
  have hs1 := startTransition_of_inv st hinv t1 Stage.death
    (standardTiming.death : ℚ) (some CbId.setDead)
  have hst1 : (beginDeath t1 st).1 =
      ({ st with
           previousStage := some st.stage
           timer := some st.nextTimerId
           activeTimers := [(st.nextTimerId, TimerKind.transUpdate)]
           nextTimerId := st.nextTimerId + 1
           isTransitioning := true
           transitionStartTime := some t1
           transitionDuration := some (standardTiming.death : ℚ)
           transitionToStage := some Stage.death
           transitionCallback := some CbId.setDead }) := by
    rw [hb1, hs1]
  have hinv1 : timersInv (beginDeath t1 st).1 = true := by
    rw [hst1]
    simp [timersInv]
  have hdead1 : (beginDeath t1 st).1.isDead = false := by
    rw [hst1]
    exact hdead
  have hb2 := beginDeath_eq t2 (beginDeath t1 st).1 hdead1
  have hs2 := startTransition_of_inv (beginDeath t1 st).1 hinv1 t2 Stage.death
    (standardTiming.death : ℚ) (some CbId.setDead)
  have hfire := fire_fresh_transition (beginDeath t1 st).1 hinv1 t2 tf Stage.death
    (standardTiming.death : ℚ) CbId.setDead hcomp
  have hev1 : (beginDeath t1 st).2 =
      [Event.timeoutScheduled ((standardTiming.death : ℚ) * (3 / 4)),
       Event.transitionStarted Stage.death (standardTiming.death : ℚ)] := by
    rw [hb1, hs1]
  have hev2 : (beginDeath t2 (beginDeath t1 st).1).2 =
      [Event.timeoutScheduled ((standardTiming.death : ℚ) * (3 / 4)),
       Event.transitionStarted Stage.death (standardTiming.death : ℚ)] := by
    rw [hb2, hs2]
  have hfir2 : (fireTimer (beginDeath t1 st).1.nextTimerId tf
      (beginDeath t2 (beginDeath t1 st).1).1) =
      (applyCb CbId.setDead
        { (beginDeath t1 st).1 with
            previousStage := some (beginDeath t1 st).1.stage
            timer := none
            activeTimers := []
            nextTimerId := (beginDeath t1 st).1.nextTimerId + 1
            isTransitioning := false
            transitionStartTime := some t2
            transitionDuration := some (standardTiming.death : ℚ)
            transitionToStage := some Stage.death
            transitionCallback := none
            stage := Stage.death
            progress := min (((tf : ℚ) - (t2 : ℚ)) / (standardTiming.death : ℚ)) 1 },
       notifyEvents Stage.death
           (min (((tf : ℚ) - (t2 : ℚ)) / (standardTiming.death : ℚ)) 1)
           (beginDeath t1 st).1.listeners
         ++ [Event.cbInvoked CbId.setDead]) := by
    rw [hb2]
    exact hfire
  refine ⟨by rw [hst1], hdead1, ?_, ?_, ?_, ?_, ?_⟩
  · unfold doubleDeathEvents
    rw [hev1, hev2, hfir2]
    simp [List.count_append, List.count_cons, notifyEvents,
      notifyList_count_timeout]
  · unfold doubleDeathEvents
    rw [hev1, hev2, hfir2]
    simp [List.count_append, List.count_cons, notifyEvents,
      notifyList_count_transStarted]
  · unfold doubleDeathEvents
    rw [hev1, hev2, hfir2]
    simp [List.count_append, List.count_cons, notifyEvents,
      notifyList_count_cb]
  · unfold doubleDeathFinal
    rw [hfir2]
    rfl
  · unfold doubleDeathFinal
    rw [hfir2]
    rfl

/-- Closed witness for the C3 amended theorem on the concrete scenario. -/
theorem c3_beginDeath_amended_witness :
    timersInv stScenario = true ∧
    stScenario.isDead = false ∧
    (doubleDeathEvents stScenario 0 100 2100).count
      (Event.timeoutScheduled ((standardTiming.death : ℚ) * (3 / 4))) = 2 ∧
    (doubleDeathEvents stScenario 0 100 2100).count
      (Event.cbInvoked CbId.setDead) = 1 ∧
    (doubleDeathFinal stScenario 0 100 2100).isDead = true := by
  have h := c3_beginDeath_amended stScenario 0 100 2100 (by decide) rfl
    (by norm_num [standardTiming])
  exact ⟨by decide, rfl, h.2.2.1, h.2.2.2.2.1, h.2.2.2.2.2.1⟩

/-- Final state of entering pirate mode at `t0` and letting the transition
interval fire at `tf`. -/
def pirateRunFinal (st : DecayState) (t0 tf : Nat) : DecayState :=
  (fireTimer st.nextTimerId tf (enterPirateMode t0 st).1).1

/-- Events of the pirate-mode entry run. -/
def pirateRunEvents (st : DecayState) (t0 tf : Nat) : List Event :=
  (enterPirateMode t0 st).2 ++
    (fireTimer st.nextTimerId tf (enterPirateMode t0 st).1).2

/-- C10: when the transition started by `enterPirateMode` completes, its
completion closure sets `isDead` even though the stage is pirate, not death;
from then on `reset()` and `resume()` are no-ops (both are guarded on
`isDead`), until `destroy()` clears the flag again. -/
theorem c10_pirate_completion (st : DecayState) (t0 tf : Nat)
    (hinv : timersInv st = true)
    (hcomp : 1 ≤ ((tf : ℚ) - (t0 : ℚ)) / (pirateColorShiftDuration : ℚ)) :
    (pirateRunFinal st t0 tf).isDead = true ∧
    (pirateRunFinal st t0 tf).stage = Stage.pirate ∧
    (pirateRunFinal st t0 tf).isTransitioning = false ∧
    (pirateRunFinal st t0 tf).timer = none ∧
    (∀ m, reset m (pirateRunFinal st t0 tf) = pirateRunFinal st t0 tf) ∧
    resume (pirateRunFinal st t0 tf) = pirateRunFinal st t0 tf ∧
    (destroy (pirateRunFinal st t0 tf)).isDead = false ∧
    (pirateRunEvents st t0 tf).count (Event.cbInvoked CbId.setDeadHide) = 1 := by
  have hfire := fire_fresh_transition st hinv t0 tf Stage.pirate
    (pirateColorShiftDuration : ℚ) CbId.setDeadHide hcomp
  have hfin : pirateRunFinal st t0 tf =
      { st with
          previousStage := some st.stage
          timer := none
          activeTimers := []
          nextTimerId := st.nextTimerId + 1
          isTransitioning := false
          transitionStartTime := some t0
          transitionDuration := some (pirateColorShiftDuration : ℚ)
          transitionToStage := some Stage.pirate
          transitionCallback := none
          stage := Stage.pirate
          progress := min (((tf : ℚ) - (t0 : ℚ)) / (pirateColorShiftDuration : ℚ)) 1
          isDead := true } := by
    unfold pirateRunFinal
    rw [enterPirateMode_eq]
    rw [show (fireTimer st.nextTimerId tf
        (startTransition t0 Stage.pirate (pirateColorShiftDuration : ℚ)
          (some CbId.setDeadHide) st).1) = _ from hfire]
    rfl
  have hev : pirateRunEvents st t0 tf =
      (startTransition t0 Stage.pirate (pirateColorShiftDuration : ℚ)
          (some CbId.setDeadHide) st).2 ++
        [Event.timeoutScheduled (pirateFadeOutDuration : ℚ)] ++
        (notifyEvents Stage.pirate
            (min (((tf : ℚ) - (t0 : ℚ)) / (pirateColorShiftDuration : ℚ)) 1)
            st.listeners
          ++ [Event.cbInvoked CbId.setDeadHide]) := by
    unfold pirateRunEvents
    rw [enterPirateMode_eq]
    rw [show (fireTimer st.nextTimerId tf
        (startTransition t0 Stage.pirate (pirateColorShiftDuration : ℚ)
          (some CbId.setDeadHide) st).1) = _ from hfire]
  refine ⟨by rw [hfin], by rw [hfin], by rw [hfin], by rw [hfin], ?_, ?_, ?_, ?_⟩
  · intro m
    rw [hfin]
    unfold reset
    simp
  · rw [hfin]
    unfold resume
    simp
  · rw [hfin]
    rfl
  · rw [hev, startTransition_of_inv st hinv]
    simp [List.count_append, List.count_cons, notifyEvents, notifyList_count_cb]

/-- Closed witness for the C10 theorem on the concrete scenario. -/
theorem c10_pirate_completion_witness :
    timersInv stScenario = true ∧
    (pirateRunFinal stScenario 0 7000).isDead = true ∧
    (pirateRunFinal stScenario 0 7000).stage = Stage.pirate ∧
    reset 9000 (pirateRunFinal stScenario 0 7000) = pirateRunFinal stScenario 0 7000 ∧
    resume (pirateRunFinal stScenario 0 7000) = pirateRunFinal stScenario 0 7000 ∧
    (destroy (pirateRunFinal stScenario 0 7000)).isDead = false := by
  have h := c10_pirate_completion stScenario 0 7000 (by decide)
    (by norm_num [pirateColorShiftDuration])
  exact ⟨by decide, h.1, h.2.1, h.2.2.2.2.1 9000, h.2.2.2.2.2.1, h.2.2.2.2.2.2.1⟩

theorem timersInv_eqFields (s t : DecayState) (hT : s.timer = t.timer)
    (hA : s.activeTimers = t.activeTimers) : timersInv s = timersInv t := by
  unfold timersInv
  rw [hT, hA]

theorem timersInv_clear (st : DecayState) (h : timersInv st = true) :
    timersInv (clearTimerField st) = true := by
  rw [clearTimerField_of_inv st h]
  rfl

theorem timersInv_empty_timer (st : DecayState) (h : timersInv st = true)
    (hA : st.activeTimers = []) : st.timer = none := by
  unfold timersInv at h
  rcases hT : st.timer with _ | id
  · rfl
  · rw [hT, hA] at h
    simp at h

theorem timersInv_none_empty (st : DecayState) (h : timersInv st = true)
    (hT : st.timer = none) : st.activeTimers = [] := by
  unfold timersInv at h
  rw [hT] at h
  rcases hA : st.activeTimers with _ | ⟨p, rest⟩
  · rfl
  · rw [hA] at h
    simp at h

theorem timersInv_install (st : DecayState)
    (hA : st.activeTimers = []) (k : TimerKind) :
    timersInv (installTimer k st) = true := by
  unfold installTimer timersInv
  rw [hA]
  simp

theorem timersInv_length (st : DecayState) (h : timersInv st = true) :
    st.activeTimers.length ≤ 1 := by
  rcases hA : st.activeTimers with _ | ⟨p, rest⟩
  · simp
  · rcases rest with _ | ⟨q, rest2⟩
    · simp
    · exfalso
      unfold timersInv at h
      rcases hT : st.timer with _ | id <;> rw [hT, hA] at h <;> simp at h

theorem updateTransition_timersInv (now : Nat) (st : DecayState)
    (h : timersInv st = true) :
    timersInv (updateTransition now st).1 = true := by
  unfold updateTransition
  split
  · split
    · rename_i c heq
      cases c <;>
        · dsimp only
          rw [clearTimerField_of_inv
            { st with progress := transProgAt now st, stage := transToOf st } (by exact h)]
          rfl
    · dsimp only
      rw [clearTimerField_of_inv
        { st with progress := transProgAt now st, stage := transToOf st } (by exact h)]
      rfl
  · exact h

theorem beginDeath_timersInv (now : Nat) (st : DecayState)
    (h : timersInv st = true) : timersInv (beginDeath now st).1 = true := by
  rcases hd : st.isDead with _ | _
  · rw [beginDeath_eq now st hd]
    dsimp only
    rw [startTransition_of_inv st h]
    simp [timersInv]
  · unfold beginDeath
    rw [if_pos hd]
    exact h

theorem update_timersInv (now : Nat) (st : DecayState) (h : timersInv st = true) :
    timersInv (update now st).1 = true := by
  unfold update
  dsimp only
  split_ifs with h1 h2 h3 h4 h5 h6 h7
  · exact h
  · exact updateTransition_timersInv now st h
  · exact h
  · exact h
  · exact h
  · exact h
  · exact beginDeath_timersInv now _ (by exact h)
  · exact h
  · exact beginDeath_timersInv now st h

theorem applyOp_timersInv (op : Op) (st : DecayState)
    (hinv : timersInv st = true)
    (hstart : isStartOp op = true → st.activeTimers = []) :
    timersInv (applyOp op st).1 = true := by
  cases op with
  | opStart now =>
      have hA : st.activeTimers = [] := hstart rfl
      have hT : st.timer = none := timersInv_empty_timer st hinv hA
      unfold applyOp start
      dsimp only
      split
      · exact hinv
      · exact timersInv_install _ hA TimerKind.tick
  | opReset now =>
      unfold applyOp reset
      dsimp only
      split
      · exact hinv
      · exact hinv
  | opStartTransition now toS dur cb =>
      unfold applyOp
      dsimp only
      rw [startTransition_of_inv st hinv]
      simp [timersInv]
  | opBeginDeath now =>
      exact beginDeath_timersInv now st hinv
  | opEnterPirate now =>
      unfold applyOp
      dsimp only
      rw [enterPirateMode_eq]
      dsimp only
      rw [startTransition_of_inv st hinv]
      simp [timersInv]
  | opPause =>
      exact timersInv_clear st hinv
  | opResume =>
      unfold applyOp resume
      dsimp only
      split
      · rename_i hcond
        have hT : st.timer = none := by
          simp only [Bool.and_eq_true, decide_eq_true_eq] at hcond
          exact hcond.1.1.1
        exact timersInv_install _ (timersInv_none_empty st hinv hT) TimerKind.tick
      · exact hinv
  | opDestroy =>
      unfold applyOp destroy
      dsimp only
      rw [clearTimerField_of_inv st hinv]
      rfl
  | opFire id now =>
      unfold applyOp fireTimer
      dsimp only
      rcases hf : st.activeTimers.find? (fun p => p.1 == id) with _ | ⟨i, k⟩
      · rw [hf]
        exact hinv
      · rw [hf]
        cases k
        · exact update_timersInv now st hinv
        · exact updateTransition_timersInv now st hinv
  | opSubscribe l =>
      unfold applyOp subscribe
      rcases l with _ | l
      · exact hinv
      · exact hinv
  | opSetStage s p =>
      unfold applyOp setStage notify
      exact hinv

theorem runOps_timersInv (ops : List Op) (st : DecayState)
    (hinv : timersInv st = true) (hg : startsGuarded ops st) :
    timersInv (runOps ops st) = true := by
  induction ops generalizing st with
  | nil => exact hinv
  | cons op rest ih =>
      obtain ⟨h1, h2⟩ := hg
      exact ih _ (applyOp_timersInv op st hinv h1) h2

theorem startsGuarded_append (pre suf : List Op) (st : DecayState)
    (h : startsGuarded (pre ++ suf) st) : startsGuarded pre st := by
  induction pre generalizing st with
  | nil => trivial
  | cons op rest ih =>
      obtain ⟨h1, h2⟩ := h
      exact ⟨h1, ih _ h2⟩

/-- C4 (amended): every operation other than `start` cancels the previous
interval or guards on its absence before installing a new one, so along any
operation sequence in which `start` is only invoked while no interval is
active (as at boot in the repository), at most one interval — tick or
transition-update — is active at every point of the run.  `start` itself
breaks the discipline (see the counterexample). -/
theorem c4_single_timer_amended (ops : List Op) (st : DecayState)
    (hinv : timersInv st = true) (hg : startsGuarded ops st) :
    (runOps ops st).activeTimers.length ≤ 1 ∧
    (∀ pre suf, ops = pre ++ suf → (runOps pre st).activeTimers.length ≤ 1) := by
  constructor
  · exact timersInv_length _ (runOps_timersInv ops st hinv hg)
  · intro pre suf hsplit
    refine timersInv_length _ (runOps_timersInv pre st hinv ?_)
    exact startsGuarded_append pre suf st (hsplit ▸ hg)

/-- Closed witness for the C4 amended theorem: a boot-style run with one
start, tick fires, pause/resume, and a death sequence. -/
theorem c4_single_timer_amended_witness :
    timersInv stScenario = true ∧
    (runOps [Op.opStart 0, Op.opFire 1 100, Op.opPause, Op.opResume,
      Op.opBeginDeath 200] stScenario).activeTimers.length ≤ 1 := by
  refine ⟨by decide, ?_⟩
  exact (c4_single_timer_amended
    [Op.opStart 0, Op.opFire 1 100, Op.opPause, Op.opResume, Op.opBeginDeath 200]
    stScenario (by decide) (by decide)).1

theorem aux_div_eq_zero (x d : ℚ) (hd : d ≠ 0) : x / d = 0 ↔ x = 0 := by
  rw [div_eq_zero_iff]
  simp [hd]

theorem bucketProgress_closed (t : Nat) :
    bucketProgress t =
      if t < 24000 then (t : ℚ) / 24000
      else if t < 27000 then ((t : ℚ) - 24000) / 3000
      else if t < 30000 then ((t : ℚ) - 27000) / 3000
      else ((t : ℚ) - 30000) / 2000 := by
  unfold bucketProgress
  split_ifs <;> ring

theorem bucketStage_vals (t : Nat) :
    (bucketStage t = Stage.healthy ↔ t < 24000) ∧
    (bucketStage t = Stage.panic ↔ 24000 ≤ t ∧ t < 27000) ∧
    (bucketStage t = Stage.decay ↔ 27000 ≤ t ∧ t < 30000) ∧
    (bucketStage t = Stage.death ↔ 30000 ≤ t) := by
  unfold bucketStage
  split_ifs with h1 h2 h3 <;> refine ⟨?_, ?_, ?_, ?_⟩ <;> simp <;> omega

theorem bucketProgress_bounds (t : Nat) (ht : t < 32000) :
    0 ≤ bucketProgress t ∧ bucketProgress t < 1 := by
  have htq : (t : ℚ) < 32000 := by exact_mod_cast ht
  unfold bucketProgress
  split_ifs with h1 h2 h3
  · have h1q : (t : ℚ) < 24000 := by exact_mod_cast h1
    constructor
    · positivity
    · rw [div_lt_one (by norm_num)]
      linarith
  · have h1q : (24000 : ℚ) ≤ (t : ℚ) := by exact_mod_cast Nat.le_of_not_lt h1
    have h2q : (t : ℚ) < 27000 := by exact_mod_cast h2
    constructor
    · apply div_nonneg (by linarith) (by norm_num)
    · rw [div_lt_one (by norm_num)]
      linarith
  · have h2q : (27000 : ℚ) ≤ (t : ℚ) := by exact_mod_cast Nat.le_of_not_lt h2
    have h3q : (t : ℚ) < 30000 := by exact_mod_cast h3
    constructor
    · apply div_nonneg (by linarith) (by norm_num)
    · rw [div_lt_one (by norm_num)]
      linarith
  · have h3q : (30000 : ℚ) ≤ (t : ℚ) := by exact_mod_cast Nat.le_of_not_lt h3
    constructor
    · apply div_nonneg (by linarith) (by norm_num)
    · rw [div_lt_one (by norm_num)]
      linarith

theorem bucketStage_mono (u v : Nat) (h : u ≤ v) :
    stageIdx (bucketStage u) ≤ stageIdx (bucketStage v) := by
  unfold bucketStage
  split_ifs <;> simp [stageIdx] <;> omega

theorem bucketProgress_eq_zero_iff (t : Nat) :
    bucketProgress t = 0 ↔ (t = 0 ∨ t = 24000 ∨ t = 27000 ∨ t = 30000) := by
  unfold bucketProgress
  split_ifs with h1 h2 h3
  · rw [aux_div_eq_zero _ _ (by norm_num)]
    have : (t : ℚ) = 0 ↔ t = 0 := by exact_mod_cast Nat.cast_inj (R := ℚ)
    rw [this]
    omega
  · rw [aux_div_eq_zero _ _ (by norm_num)]
    have hiff : (t : ℚ) - 24000 = 0 ↔ t = 24000 := by
      constructor
      · intro hz
        have : (t : ℚ) = 24000 := by linarith
        exact_mod_cast this
      · intro hz
        subst hz
        norm_num
    rw [hiff]
    omega
  · rw [aux_div_eq_zero _ _ (by norm_num)]
    have hiff : (t : ℚ) - 24000 - 3000 = 0 ↔ t = 27000 := by
      constructor
      · intro hz
        have : (t : ℚ) = 27000 := by linarith
        exact_mod_cast this
      · intro hz
        subst hz
        norm_num
    rw [hiff]
    omega
  · rw [aux_div_eq_zero _ _ (by norm_num)]
    have hiff : (t : ℚ) - 24000 - 3000 - 3000 = 0 ↔ t = 30000 := by
      constructor
      · intro hz
        have : (t : ℚ) = 30000 := by linarith
        exact_mod_cast this
      · intro hz
        subst hz
        norm_num
    rw [hiff]
    omega

theorem bucketStage_change_iff (t : Nat) (h0 : 0 < t) :
    (bucketStage t ≠ bucketStage (t - 1)) ↔
      (t = 24000 ∨ t = 27000 ∨ t = 30000) := by
  unfold bucketStage
  split_ifs <;> simp <;> omega

theorem update_standard_eq (st : DecayState) (L n : Nat)
    (hpm : st.permanentPirateMode = false)
    (htr : st.isTransitioning = false)
    (hdead : st.isDead = false)
    (hli : st.lastInteraction = some L)
    (hln : L ≤ n) (hlt : n - L < 32000) :
    update n st =
      ({ st with stage := bucketStage (n - L), progress := bucketProgress (n - L) },
       notifyEvents (bucketStage (n - L)) (bucketProgress (n - L)) st.listeners) := by
  unfold update
  rw [if_neg (by simp [hpm]), if_neg (by simp [htr]), if_neg (by simp [hdead])]
  dsimp only
  rw [hli]
  dsimp only
  have hnL : (n : Int) - (L : Int) = ((n - L : Nat) : Int) := by omega
  rw [hnL]
  generalize hgen : n - L = t at hlt ⊢
  have htq : (t : ℚ) < 32000 := by exact_mod_cast hlt
  unfold notify bucketStage bucketProgress
  simp only [standardTiming]
  push_cast
  split_ifs <;> first
    | rfl
    | omega
    | (rename_i hdiv ha hb hc
       exfalso
       rw [le_div_iff₀ (by norm_num : (0 : ℚ) < 2000)] at hdiv
       linarith)

/-- C1: in standard mode, one `update()` call at elapsed time `t = now - L`
inside the duration table buckets `t` against the cumulative thresholds
24000, 27000, 30000 (stage healthy, panic, decay, death respectively, never
pirate), sets progress to the fractional position within the bucket — so
progress lies in [0, 1) — the bucket assignment is monotone in the elapsed
time, and across one millisecond the stage changes exactly when the progress
has just reset to 0 (t > 0). -/
theorem c1_update_stage_bucketing (st : DecayState) (L : Nat)
    (hpm : st.permanentPirateMode = false)
    (htr : st.isTransitioning = false)
    (hdead : st.isDead = false)
    (hli : st.lastInteraction = some L) :
    (∀ n, L ≤ n → n - L < 32000 →
      (update n st).1.stage = bucketStage (n - L) ∧
      (update n st).1.progress = bucketProgress (n - L) ∧
      ((update n st).1.stage = Stage.healthy ∨ (update n st).1.stage = Stage.panic ∨
       (update n st).1.stage = Stage.decay ∨ (update n st).1.stage = Stage.death) ∧
      0 ≤ (update n st).1.progress ∧ (update n st).1.progress < 1) ∧
    (∀ t : Nat,
      (bucketStage t = Stage.healthy ↔ t < 24000) ∧
      (bucketStage t = Stage.panic ↔ 24000 ≤ t ∧ t < 27000) ∧
      (bucketStage t = Stage.decay ↔ 27000 ≤ t ∧ t < 30000) ∧
      (bucketStage t = Stage.death ↔ 30000 ≤ t)) ∧
    (∀ n1 n2, L ≤ n1 → n1 ≤ n2 → n2 - L < 32000 →
      stageIdx (update n1 st).1.stage ≤ stageIdx (update n2 st).1.stage) ∧
    (∀ n, L < n → n - L < 32000 →
      ((update n st).1.stage ≠ (update (n - 1) st).1.stage ↔
        (update n st).1.progress = 0)) := by
  have hone : ∀ n, L ≤ n → n - L < 32000 →
      (update n st).1.stage = bucketStage (n - L) ∧
      (update n st).1.progress = bucketProgress (n - L) := by
    intro n hln hlt
    rw [update_standard_eq st L n hpm htr hdead hli hln hlt]
    exact ⟨rfl, rfl⟩
  refine ⟨?_, fun t => bucketStage_vals t, ?_, ?_⟩
  · intro n hln hlt
    obtain ⟨hs, hp⟩ := hone n hln hlt
    refine ⟨hs, hp, ?_, ?_, ?_⟩
    · rw [hs]
      unfold bucketStage
      split_ifs <;> simp
    · rw [hp]
      exact (bucketProgress_bounds _ hlt).1
    · rw [hp]
      exact (bucketProgress_bounds _ hlt).2
  · intro n1 n2 h1 h2 h3
    have h1lt : n1 - L < 32000 := by omega
    rw [(hone n1 h1 h1lt).1, (hone n2 (by omega) h3).1]
    exact bucketStage_mono _ _ (by omega)
  · intro n hln hlt
    have h1 : L ≤ n - 1 := by omega
    have h2 : (n - 1) - L < 32000 := by omega
    have h3 : (n - 1) - L = (n - L) - 1 := by omega
    rw [(hone n (by omega) hlt).1, (hone n (by omega) hlt).2,
        (hone (n - 1) h1 h2).1, h3]
    rw [bucketStage_change_iff (n - L) (by omega), bucketProgress_eq_zero_iff]
    omega

/-- Closed witness for the C1 theorem: one standard-mode tick at elapsed time
25000ms lands in the panic bucket with fractional progress 1/3. -/
theorem c1_update_stage_bucketing_witness :
    stScenario.permanentPirateMode = false ∧
    stScenario.lastInteraction = some 0 ∧
    (update 25000 stScenario).1.stage = Stage.panic ∧
    (update 25000 stScenario).1.progress = 1 / 3 ∧
    0 ≤ (update 25000 stScenario).1.progress ∧
    (update 25000 stScenario).1.progress < 1 := by
  have h := c1_update_stage_bucketing stScenario 0 rfl rfl rfl rfl
  have h1 := h.1 25000 (by norm_num) (by norm_num)
  refine ⟨rfl, rfl, ?_, ?_, h1.2.2.2.1, h1.2.2.2.2⟩
  · rw [h1.1]
    norm_num [bucketStage]
  · rw [h1.2.1]
    norm_num [bucketProgress]

/-- Controller state while the transition interval installed by
`startTransition t0 toS d (some c)` on `st` is still running and the last
reported pair is `(sg, pr)`. -/
def aliveAt (st : DecayState) (t0 : Nat) (d : ℚ) (toS : Stage) (c : CbId)
    (sg : Stage) (pr : ℚ) : DecayState :=
  { st with
      previousStage := some st.stage
      timer := some st.nextTimerId
      activeTimers := [(st.nextTimerId, TimerKind.transUpdate)]
      nextTimerId := st.nextTimerId + 1
      isTransitioning := true
      transitionStartTime := some t0
      transitionDuration := some d
      transitionToStage := some toS
      transitionCallback := some c
      stage := sg
      progress := pr }

/-- Controller state after that transition completed (final progress 1, the
interval cancelled, the callback detached and applied). -/
def doneAt (st : DecayState) (t0 : Nat) (d : ℚ) (toS : Stage) (c : CbId) : DecayState :=
  applyCb c
    { st with
        previousStage := some st.stage
        timer := none
        activeTimers := []
        nextTimerId := st.nextTimerId + 1
        isTransitioning := false
        transitionStartTime := some t0
        transitionDuration := some d
        transitionToStage := some toS
        transitionCallback := none
        stage := toS
        progress := 1 }

theorem startTransition_aliveAt (st : DecayState) (h : timersInv st = true)
    (t0 : Nat) (toS : Stage) (d : ℚ) (c : CbId) :
    (startTransition t0 toS d (some c) st).1 =
      aliveAt st t0 d toS c st.stage st.progress := by
  rw [startTransition_of_inv st h]
  rfl

theorem fire_aliveAt_incomplete (st : DecayState) (t0 : Nat) (d : ℚ) (toS : Stage)
    (c : CbId) (sg : Stage) (pr : ℚ) (n : Nat)
    (hn : ¬ 1 ≤ transProgress t0 n d) :
    fireTimer st.nextTimerId n (aliveAt st t0 d toS c sg pr) =
      (aliveAt st t0 d toS c toS (transProgress t0 n d),
       notifyEvents toS (transProgress t0 n d) st.listeners) := by
  rw [fireTimer_single_trans _ _ _ rfl]
  rw [updateTransition_eq n _ t0 d toS rfl rfl rfl]
  rw [if_neg (show ¬ 1 ≤ min (((n : ℚ) - (t0 : ℚ)) / d) 1 from hn)]
  rfl

theorem fire_aliveAt_complete (st : DecayState) (t0 : Nat) (d : ℚ) (toS : Stage)
    (c : CbId) (sg : Stage) (pr : ℚ) (n : Nat)
    (hn : 1 ≤ transProgress t0 n d) :
    fireTimer st.nextTimerId n (aliveAt st t0 d toS c sg pr) =
      (doneAt st t0 d toS c,
       notifyEvents toS 1 st.listeners ++ [Event.cbInvoked c]) := by
  have hmin : min (((n : ℚ) - (t0 : ℚ)) / d) 1 = 1 :=
    le_antisymm (min_le_right _ _) hn
  rw [fireTimer_single_trans _ _ _ rfl]
  rw [updateTransition_eq n _ t0 d toS rfl rfl rfl]
  rw [if_pos (show 1 ≤ min (((n : ℚ) - (t0 : ℚ)) / d) 1 from hn)]
  rw [hmin]
  rw [clearTimerField_of_inv
    ({ aliveAt st t0 d toS c sg pr with progress := (1 : ℚ), stage := toS })
    (by simp [aliveAt, timersInv])]
  rfl

theorem fire_doneAt (st : DecayState) (t0 : Nat) (d : ℚ) (toS : Stage) (c : CbId)
    (n : Nat) :
    fireTimer st.nextTimerId n (doneAt st t0 d toS c) = (doneAt st t0 d toS c, []) := by
  cases c <;> rfl

theorem liveTimes_nil (t0 : Nat) (d : ℚ) : liveTimes t0 d [] = [] := rfl

theorem liveTimes_cons (t0 : Nat) (d : ℚ) (n : Nat) (rest : List Nat) :
    liveTimes t0 d (n :: rest) =
      if 1 ≤ transProgress t0 n d then [n] else n :: liveTimes t0 d rest := rfl

theorem runTimer_cons (id n : Nat) (rest : List Nat) (st : DecayState) :
    runTimer id (n :: rest) st =
      ((runTimer id rest (fireTimer id n st).1).1,
       (fireTimer id n st).2 ++ (runTimer id rest (fireTimer id n st).1).2) := rfl

theorem runTimer_doneAt (st : DecayState) (t0 : Nat) (d : ℚ) (toS : Stage) (c : CbId)
    (times : List Nat) :
    runTimer st.nextTimerId times (doneAt st t0 d toS c) =
      (doneAt st t0 d toS c, []) := by
  induction times with
  | nil => rfl
  | cons n rest ih =>
      rw [runTimer_cons, fire_doneAt]
      dsimp only
      rw [ih]
      rfl

theorem runTimer_aliveAt (st : DecayState) (t0 : Nat) (d : ℚ) (toS : Stage) (c : CbId)
    (times : List Nat) (sg : Stage) (pr : ℚ) :
    runTimer st.nextTimerId times (aliveAt st t0 d toS c sg pr) =
      ((if completes t0 d times then doneAt st t0 d toS c
        else match times.getLast? with
          | some nl => aliveAt st t0 d toS c toS (transProgress t0 nl d)
          | none => aliveAt st t0 d toS c sg pr),
       (liveTimes t0 d times).flatMap
           (fun n => notifyEvents toS (transProgress t0 n d) st.listeners)
         ++ (if completes t0 d times then [Event.cbInvoked c] else [])) := by
  induction times generalizing sg pr with
  | nil =>
      rw [if_neg (by rintro ⟨m, hm, _⟩; exact List.not_mem_nil m hm),
          if_neg (by rintro ⟨m, hm, _⟩; exact List.not_mem_nil m hm)]
      rfl
  | cons n rest ih =>
      have hco : completes t0 d (n :: rest) ↔
          (1 ≤ transProgress t0 n d ∨ completes t0 d rest) := by
        unfold completes
        constructor
        · rintro ⟨m, hm, hmp⟩
          rcases List.mem_cons.mp hm with rfl | hm2
          · exact Or.inl hmp
          · exact Or.inr ⟨m, hm2, hmp⟩
        · rintro (h | ⟨m, hm, hmp⟩)
          · exact ⟨n, List.mem_cons_self n rest, h⟩
          · exact ⟨m, List.mem_cons_of_mem n hm, hmp⟩
      by_cases hn : 1 ≤ transProgress t0 n d
      · rw [runTimer_cons, fire_aliveAt_complete st t0 d toS c sg pr n hn]
        dsimp only
        rw [runTimer_doneAt]
        have hcoT : completes t0 d (n :: rest) := hco.mpr (Or.inl hn)
        rw [if_pos hcoT, if_pos hcoT]
        rw [liveTimes_cons, if_pos hn]
        have hmin : transProgress t0 n d = 1 :=
          le_antisymm (min_le_right _ _) hn
        rw [List.flatMap_cons, hmin]
        simp
      · rw [runTimer_cons, fire_aliveAt_incomplete st t0 d toS c sg pr n hn]
        dsimp only
        rw [ih toS (transProgress t0 n d)]
        rw [liveTimes_cons, if_neg hn, List.flatMap_cons]
        by_cases hcr : completes t0 d rest
        · rw [if_pos hcr, if_pos (hco.mpr (Or.inr hcr)), if_pos hcr,
              if_pos (hco.mpr (Or.inr hcr))]
          simp
        · have hcoF : ¬ completes t0 d (n :: rest) := by
            intro hx
            rcases hco.mp hx with h | h
            · exact hn h
            · exact hcr h
          rw [if_neg hcr, if_neg hcoF, if_neg hcr, if_neg hcoF]
          rcases rest with _ | ⟨m, rest2⟩
          · simp [liveTimes_nil]
          · rw [List.getLast?_cons_cons]
            rcases hgl : (m :: rest2).getLast? with _ | nl
            · simp at hgl
            · simp

theorem count_cb_notifyEvents (s : Stage) (p : ℚ) (ls : List Listener) (c : CbId) :
    (notifyEvents s p ls).count (Event.cbInvoked c) = 0 := by
  simp [notifyEvents, List.count_cons, notifyList_count_cb]

theorem count_cb_flatMap (L : List Nat) (s : Stage) (p : Nat → ℚ)
    (ls : List Listener) (c : CbId) :
    ((L.flatMap fun n => notifyEvents s (p n) ls).count (Event.cbInvoked c)) = 0 := by
  induction L with
  | nil => rfl
  | cons n rest ih =>
      rw [List.flatMap_cons, List.count_append, count_cb_notifyEvents, ih]

/-- C2: for a transition started by `startTransition(toStage, d, cb)` at
`t0`, the run of the installed interval over any tick instants reports, on
every live tick, stage `toStage` with progress `min((now - t0)/d, 1)`
(broadcasting to all listeners each time); the reported progress is
non-decreasing along non-decreasing instants and never exceeds 1; and as
soon as progress reaches 1 the interval is cancelled, the transitioning flag
cleared, the final reported progress is exactly 1 and the completion
callback runs exactly once (zero times if no instant completes). -/
theorem c2_transition_run (st : DecayState) (t0 : Nat) (d : ℚ) (toS : Stage)
    (c : CbId) (times : List Nat)
    (hinv : timersInv st = true) (hd : 0 < d) :
    (runTimer st.nextTimerId times
        (startTransition t0 toS d (some c) st).1).2 =
      (liveTimes t0 d times).flatMap
          (fun n => notifyEvents toS (transProgress t0 n d) st.listeners)
        ++ (if completes t0 d times then [Event.cbInvoked c] else []) ∧
    (completes t0 d times →
      (runTimer st.nextTimerId times
          (startTransition t0 toS d (some c) st).1).1.timer = none ∧
      (runTimer st.nextTimerId times
          (startTransition t0 toS d (some c) st).1).1.isTransitioning = false ∧
      (runTimer st.nextTimerId times
          (startTransition t0 toS d (some c) st).1).1.stage = toS ∧
      (runTimer st.nextTimerId times
          (startTransition t0 toS d (some c) st).1).1.progress = 1 ∧
      (runTimer st.nextTimerId times
          (startTransition t0 toS d (some c) st).1).2.count
        (Event.cbInvoked c) = 1) ∧
    (¬ completes t0 d times →
      (runTimer st.nextTimerId times
          (startTransition t0 toS d (some c) st).1).2.count
        (Event.cbInvoked c) = 0) ∧
    (∀ n : Nat, transProgress t0 n d ≤ 1) ∧
    (∀ n1 n2 : Nat, n1 ≤ n2 → transProgress t0 n1 d ≤ transProgress t0 n2 d) ∧
    (∀ n : Nat, t0 ≤ n → 0 ≤ transProgress t0 n d) := by
  have hst := startTransition_aliveAt st hinv t0 toS d c
  have hrun := runTimer_aliveAt st t0 d toS c times st.stage st.progress
  refine ⟨?_, ?_, ?_, ?_, ?_, ?_⟩
  · rw [hst, hrun]
  · intro hc
    rw [hst, hrun]
    rw [if_pos hc, if_pos hc]
    refine ⟨?_, ?_, ?_, ?_, ?_⟩
    · cases c <;> rfl
    · cases c <;> rfl
    · cases c <;> rfl
    · cases c <;> rfl
    · rw [List.count_append, count_cb_flatMap]
      simp
  · intro hc
    rw [hst, hrun]
    rw [List.count_append, count_cb_flatMap]
    rw [if_neg hc]
    simp
  · intro n
    exact min_le_right _ _
  · intro n1 n2 h12
    unfold transProgress
    have hq : (n1 : ℚ) ≤ (n2 : ℚ) := by exact_mod_cast h12
    gcongr
  · intro n hn
    have hq : (t0 : ℚ) ≤ (n : ℚ) := by exact_mod_cast hn
    unfold transProgress
    rw [le_min_iff]
    constructor
    · apply div_nonneg (by linarith) hd.le
    · norm_num

/-- Closed witness for the C2 theorem: the pirate transition of 7000ms with
ticks at 3500ms and 7000ms completes with progress exactly 1, the interval
cancelled and the callback invoked once. -/
theorem c2_transition_run_witness :
    timersInv stScenario = true ∧
    (0 : ℚ) < 7000 ∧
    (runTimer stScenario.nextTimerId [3500, 7000]
        (startTransition 0 Stage.pirate 7000 (some CbId.user) stScenario).1).1.timer
      = none ∧
    (runTimer stScenario.nextTimerId [3500, 7000]
        (startTransition 0 Stage.pirate 7000 (some CbId.user) stScenario).1).1.isTransitioning
      = false ∧
    (runTimer stScenario.nextTimerId [3500, 7000]
        (startTransition 0 Stage.pirate 7000 (some CbId.user) stScenario).1).1.stage
      = Stage.pirate ∧
    (runTimer stScenario.nextTimerId [3500, 7000]
        (startTransition 0 Stage.pirate 7000 (some CbId.user) stScenario).1).1.progress
      = 1 ∧
    (runTimer stScenario.nextTimerId [3500, 7000]
        (startTransition 0 Stage.pirate 7000 (some CbId.user) stScenario).1).2.count
      (Event.cbInvoked CbId.user) = 1 := by
  have h := c2_transition_run stScenario 0 7000 Stage.pirate CbId.user [3500, 7000]
    (by decide) (by norm_num)
  have hc : completes 0 (7000 : ℚ) [3500, 7000] := by
    refine ⟨7000, by simp, ?_⟩
    norm_num [transProgress]
  have h2 := h.2.1 hc
  exact ⟨by decide, by norm_num, h2.1, h2.2.1, h2.2.2.1, h2.2.2.2.1, h2.2.2.2.2⟩

end LeakWorm
